import Mathlib

/-!
Verification of the crypto-tracker repository's core: the Hyperbee-backed
time-series store (hyperbeeClient), the task scheduler, the RPC service
handlers, and the data-collection pipeline.

The store model: Hyperbee orders keys by the byte order of their utf-8
encoding.  All keys produced by the code are built from the pair name, the
character '/', and the decimal text of a timestamp; utf-8 byte order
coincides with codepoint order, so keys are modelled as `String` compared by
the codepoint sequence.  The database is modelled as its set of bindings,
a duplicate-free association list; `createReadStream {gte, lte}` is the
bindings whose key lies in the inclusive range, in ascending key order.
-/

namespace CryptoTracker

/-- Codepoint sequence of a string: the order Hyperbee compares keys by
(utf-8 byte order equals codepoint order). -/
def strBytes (s : String) : List Nat := s.data.map Char.toNat

/-- Lexicographic (strict-or-equal) order on codepoint sequences. -/
def lexLeL : List Nat → List Nat → Bool
  | [], _ => true
  | _ :: _, [] => false
  | a :: as, b :: bs =>
    if a < b then true
    else if b < a then false
    else lexLeL as bs

/-- Key order used by the store: byte-lexicographic on the encoded key. -/
def keyLe (a b : String) : Bool := lexLeL (strBytes a) (strBytes b)

/-- Model of JavaScript `String.prototype.startsWith`. -/
def jsStartsWith (s p : String) : Bool := (strBytes p).isPrefixOf (strBytes s)

/-- The JSON value stored under one key: `{ averagePrice, exchanges }`. -/
structure PriceValue where
  averagePrice : Int
  exchanges : List String
deriving DecidableEq, Repr

/-- The Hyperbee database: its bindings, keyed by utf-8 string keys.
`dbPut` keeps the bindings duplicate-free. -/
abbrev Store := List (String × PriceValue)

/-- Hyperbee `db.put key value`: upsert, last write wins. -/
def dbPut (s : Store) (k : String) (v : PriceValue) : Store :=
  (k, v) :: s.filter (fun e => e.1 != k)

/-- Whether the underlying storage medium currently accepts writes. -/
inductive StoreMedium
  | ok
  | unavailable
deriving DecidableEq, Repr

/-- A put against the medium: throws when the medium cannot be written. -/
def dbPutM (m : StoreMedium) (s : Store) (k : String) (v : PriceValue) :
    Except String Store :=
  match m with
  | .ok => .ok (dbPut s k v)
  | .unavailable => .error "StoreUnavailable"

/-- Stable insertion of `x` into `l` under the boolean preorder `le`. -/
def insertBy {α : Type} (le : α → α → Bool) (x : α) : List α → List α
  | [] => [x]
  | y :: ys => if le x y then x :: y :: ys else y :: insertBy le x ys

/-- Stable sort by the boolean preorder `le` (insertion sort). -/
def sortBy {α : Type} (le : α → α → Bool) : List α → List α
  | [] => []
  | x :: xs => insertBy le x (sortBy le xs)

/-- Model of `db.createReadStream({gte, lte})`: the bindings whose key lies in
the inclusive range, in ascending key order. -/
def streamRange (s : Store) (gte lte : String) : List (String × PriceValue) :=
  sortBy (fun a b => keyLe a.1 b.1)
    (s.filter (fun e => keyLe gte e.1 && keyLe e.1 lte))

/-- savePriceData (hyperbeeClient): throws when the db handle is missing;
otherwise writes under the key `pair + "/" + timestamp` and, when the write
itself fails, catches the error, logs it, and returns normally (the store is
then unchanged).  The returned store tracks the mutation. -/
def savePriceData (medium : StoreMedium) (db : Option Store) (pair : String)
    (timestamp : Nat) (averagePrice : Int) (exchanges : List String) :
    Except String Store :=
  match db with
  | none => .error "Hyperbee instance is not initialized. Call initDB first."
  | some s =>
    let key := pair ++ "/" ++ toString timestamp
    match dbPutM medium s key ⟨averagePrice, exchanges⟩ with
    | .ok s2 => .ok s2
    | .error _ => .ok s

/-- Model of JavaScript `split('/')` on the character list of a key. -/
def splitOnSlash : List Char → List (List Char)
  | [] => [[]]
  | a :: as =>
    let r := splitOnSlash as
    if a = '/' then [] :: r
    else
      match r with
      | [] => [[a]]
      | g :: gs => (a :: g) :: gs

/-- Model of JavaScript `parseInt` on a character list: the longest leading
digit run, `none` standing for `NaN` when there is none. -/
def jsParseInt (l : List Char) : Option Nat :=
  let ds := l.takeWhile (fun c => c.isDigit)
  if ds.isEmpty then none
  else some (ds.foldl (fun n c => n * 10 + (c.toNat - 48)) 0)

/-- The timestamp the read path recovers from a key:
`parseInt(entry.key.split('/')[1])`. -/
def keyTimestamp (key : String) : Option Nat :=
  jsParseInt ((splitOnSlash key.data).getD 1 [])

/-- A record as returned by the read path; `timestamp = none` models the
`NaN` that `parseInt` yields on a non-numeric key segment. -/
structure PriceRecord where
  pair : String
  timestamp : Option Nat
  averagePrice : Int
  exchanges : List String
deriving DecidableEq, Repr

/-- The record the read path builds from one stream entry. -/
def entryToRecord (pair : String) (e : String × PriceValue) : PriceRecord :=
  { pair := pair
    timestamp := keyTimestamp e.1
    averagePrice := e.2.averagePrice
    exchanges := e.2.exchanges }

/-- The upper bound character `'\xff'` of the latest-lookup scan. -/
def xff : Char := Char.ofNat 255

/-- getLatestPrice (hyperbeeClient): reverse scan limited to one result over
`[pair + "/", pair + "/" + '\xff']`; the single entry produced is the one
with the greatest key in the range; `none` when the range is empty. -/
def getLatestPrice (db : Option Store) (pair : String) :
    Except String (Option PriceRecord) :=
  match db with
  | none => .error "Hyperbee instance is not initialized."
  | some s =>
    let pfx := pair ++ "/"
    let entries := streamRange s pfx (pfx.push xff)
    match entries.getLast? with
    | none => .ok none
    | some e => .ok (some (entryToRecord pair e))

/-- Comparator used by the final `sort((a,b) => a.timestamp - b.timestamp)`:
a `NaN` difference is treated as equal by the JavaScript sort. -/
def tsLe : Option Nat → Option Nat → Bool
  | some a, some b => decide (a ≤ b)
  | _, _ => true

/-- getHistoricalPrices (hyperbeeClient): scans
`[pair + "/" + from, pair + "/" + to]`, keeps entries whose key starts with
`pair + "/"`, and sorts the results by their recovered timestamp. -/
def getHistoricalPrices (db : Option Store) (pair : String)
    (fromTs toTs : Nat) : Except String (List PriceRecord) :=
  match db with
  | none => .error "Hyperbee instance is not initialized."
  | some s =>
    let startKey := pair ++ "/" ++ toString fromTs
    let endKey := pair ++ "/" ++ toString toTs
    let entries := streamRange s startKey endKey
    let results :=
      (entries.filter (fun e => jsStartsWith e.1 (pair ++ "/"))).map
        (entryToRecord pair)
    .ok (sortBy (fun a b => tsLe a.timestamp b.timestamp) results)

/-!
Scheduler (components/scheduler.js).  The class runs on a single-threaded
event loop; `runTask` is asynchronous and suspends at `await this.task()`,
so a timer tick or an on-demand call arriving during that suspension starts
a further execution of the task — the code has no single-flight guard.  The
scheduler is modelled as a state machine over the interleaving of its
events; `inFlight` counts the executions of `runTask` currently suspended
inside the task.
-/

/-- State of a Scheduler instance: its two fields plus the executions in
flight and completion counters (`failed` counts executions that ended in the
catch branch of `runTask`, `succeeded` those that completed normally). -/
structure SchedState where
  isRunning : Bool
  timerArmed : Bool
  inFlight : Nat
  succeeded : Nat
  failed : Nat
deriving DecidableEq, Repr

/-- State after the constructor: timerId null, isRunning false. -/
def initSchedState : SchedState :=
  { isRunning := false, timerArmed := false, inFlight := 0
    succeeded := 0, failed := 0 }

/-- Events of the scheduler's event loop. -/
inductive SchedEvent
  | startCall
  | stopCall
  | timerFire
  | onDemand
  | taskFinish (ok : Bool)
deriving DecidableEq, Repr

/-- One step of the scheduler; `none` when the event is not enabled
(the timer cannot fire while disarmed; a task cannot finish when none is in
flight).  `start` on an already-running scheduler is the logged no-op;
`start` otherwise begins one execution (un-awaited `this.runTask()`), arms
the interval timer, and sets `isRunning`.  A tick or an on-demand call
begins a further execution unconditionally — the code has no guard.  A
finishing task only updates the counters: `runTask` catches task errors, so
neither outcome touches the timer or `isRunning`. -/
def schedStep (s : SchedState) : SchedEvent → Option SchedState
  | .startCall =>
    if s.isRunning then some s
    else some { s with inFlight := s.inFlight + 1, timerArmed := true,
                       isRunning := true }
  | .stopCall =>
    if s.isRunning then
      some { s with timerArmed := false, isRunning := false }
    else some s
  | .timerFire =>
    if s.timerArmed then some { s with inFlight := s.inFlight + 1 } else none
  | .onDemand => some { s with inFlight := s.inFlight + 1 }
  | .taskFinish ok =>
    if s.inFlight > 0 then
      some (if ok then
              { s with inFlight := s.inFlight - 1, succeeded := s.succeeded + 1 }
            else
              { s with inFlight := s.inFlight - 1, failed := s.failed + 1 })
    else none

/-- Run a sequence of events from a state; `none` when a non-enabled event
occurs. -/
def runEvents (s : SchedState) (evs : List SchedEvent) : Option SchedState :=
  evs.foldlM schedStep s

/-- Functional view of `Scheduler.runTask` on one task execution whose
outcome is given: the try/catch swallows a task error, so `runTask` itself
always returns normally. -/
def runTask (taskOutcome : Except String Unit) : Except String Unit :=
  match taskOutcome with
  | .ok _ => .ok ()
  | .error _ => .ok ()

/-- `Scheduler.runOnDemand` awaits `runTask`. -/
def runOnDemand (taskOutcome : Except String Unit) : Except String Unit :=
  runTask taskOutcome

/-- Response of the triggerDataCollection RPC handler. -/
structure TriggerResponse where
  success : Bool
  message : String
deriving DecidableEq, Repr

/-- The triggerDataCollection handler (rpcService): awaits
`scheduler.runOnDemand()` — so the response is computed from the completed
run's outcome — and reports success unless that call threw. -/
def triggerDataCollectionHandler (taskOutcome : Except String Unit) :
    TriggerResponse :=
  match runOnDemand taskOutcome with
  | .ok _ =>
    { success := true, message := "Data collection task triggered successfully." }
  | .error e =>
    { success := false
      message := if e = "" then "Failed to trigger data collection." else e }

/-!
Database module state (hyperbeeClient's module-level `hbee` singleton).
The Hyperbee instance is identified by the storage path it was created
with; filesystem path resolution is environment-dependent and kept
abstract.
-/

/-- A constructed Hyperbee handle, identified by its creation path. -/
structure HyperbeeInstance where
  storagePath : String
deriving DecidableEq, Repr

/-- The hyperbeeClient module's mutable state: the `hbee` singleton. -/
structure DBModule where
  hbee : Option HyperbeeInstance
deriving DecidableEq, Repr

/-- initDB (hyperbeeClient): returns the existing singleton when present
(its `storagePath` argument then has no effect); otherwise constructs the
instance at the given path and records it. -/
def initDB (m : DBModule) (storagePath : String) :
    HyperbeeInstance × DBModule :=
  match m.hbee with
  | some b => (b, m)
  | none =>
    let b : HyperbeeInstance := { storagePath := storagePath }
    (b, { hbee := some b })

/-!
Data-collection pipeline: coingecko.fetchTopCryptoData and the
dataCollectionTask closure of server.js.  The external feed is abstracted
as its observable results: the list of top coins and a per-coin price
resolution (coingecko.getAveragePrice returns null on any per-coin
failure); the clock is a constant of the run.
-/

/-- A coin as returned by getTopCoins. -/
structure Coin where
  id : String
  symbol : String
deriving DecidableEq, Repr

/-- The per-coin result of getAveragePrice. -/
structure PriceInfo where
  averagePrice : Int
  exchanges : List String
deriving DecidableEq, Repr

/-- One element of fetchTopCryptoData's result (its `coinGeckoId` field is
dropped by savePriceData's destructuring and omitted). -/
structure DataPoint where
  pair : String
  timestamp : Nat
  averagePrice : Int
  exchanges : List String
deriving DecidableEq, Repr

/-- The per-coin loop of fetchTopCryptoData: coins whose price resolution
fails are logged and skipped. -/
def collectResults (priceOf : String → Option PriceInfo) (now : Nat) :
    List Coin → List DataPoint
  | [] => []
  | c :: cs =>
    match priceOf c.id with
    | some pd =>
      { pair := c.symbol ++ "-USDT", timestamp := now
        averagePrice := pd.averagePrice, exchanges := pd.exchanges } ::
        collectResults priceOf now cs
    | none => collectResults priceOf now cs

/-- fetchTopCryptoData (coingecko): returns `[]` at once when no top coins
were fetched, otherwise the per-coin results. -/
def fetchTopCryptoData (topCoins : List Coin)
    (priceOf : String → Option PriceInfo) (now : Nat) : List DataPoint :=
  if topCoins.isEmpty then [] else collectResults priceOf now topCoins

/-- The write loop of dataCollectionTask: one savePriceData call per data
point.  savePriceData only throws on a null db handle, which cannot occur
here (the task runs with the initialized cryptoDB), so the abort branch is
unreachable. -/
def collectLoop (medium : StoreMedium) : Store → List DataPoint → Store
  | db, [] => db
  | db, d :: ds =>
    match savePriceData medium (some db) d.pair d.timestamp d.averagePrice
        d.exchanges with
    | .ok db2 => collectLoop medium db2 ds
    | .error _ => db

/-- dataCollectionTask (server.js): writes each fetched data point when the
fetch produced any, otherwise only logs; its try/catch prevents any error
from escaping the task, so it always returns normally. -/
def dataCollectionTask (medium : StoreMedium) (db : Store)
    (cryptoData : List DataPoint) : Except String Store :=
  .ok (if cryptoData.length > 0 then collectLoop medium db cryptoData else db)

/-!
RPC handlers (rpcService.js).  A request arrives as bytes; `JSON.parse` may
throw (modelled as the `malformed` case), and a parsed payload's fields may
be absent or of the wrong type.  The only test the code applies to `pairs`
is `Array.isArray`, and to `from`/`to` is `typeof === 'number'`; a field is
therefore modelled by whether it passes its test, carrying the typed value
when it does (array elements are used via string interpolation and modelled
as strings).  Each handler's body runs inside try/catch, every failure being
answered with the `{error}` payload — the handlers are total functions into
`RpcResp`, so no exception reaches the transport. -/

/-- A field of a parsed request: absent, present with the wrong type, or
present with the expected type. -/
inductive JsonField (α : Type)
  | missing
  | wrongType
  | val (a : α)
deriving DecidableEq

/-- Whether the field passes its type test. -/
def JsonField.isVal {α : Type} : JsonField α → Bool
  | .val _ => true
  | _ => false

/-- A request body after `JSON.parse`: either the parse threw, or it
produced a payload. -/
inductive Parsed (α : Type)
  | malformed (msg : String)
  | ok (a : α)
deriving DecidableEq

/-- Payload of a getLatestPrices request. -/
structure LatestReq where
  pairs : JsonField (List String)
deriving DecidableEq

/-- Payload of a getHistoricalPrices request. -/
structure HistReq where
  pairs : JsonField (List String)
  fromTs : JsonField Nat
  toTs : JsonField Nat
deriving DecidableEq

/-- A handler's answer: the normal payload, or the structured error
payload `{error: string}`. -/
inductive RpcResp (α : Type)
  | payload (a : α)
  | errorPayload (e : String)
deriving DecidableEq

/-- Whether the answer is the `{error}` payload. -/
def RpcResp.isError {α : Type} : RpcResp α → Bool
  | .errorPayload _ => true
  | _ => false

/-- JavaScript `error.message || dflt`. -/
def orDefault (msg dflt : String) : String := if msg = "" then dflt else msg

/-- Body of the getLatestPrices handler: validates `pairs` with
Array.isArray, then queries the store once per pair, each result pushed
(null when absent). -/
def getLatestPricesBody (db : Option Store) (r : LatestReq) :
    Except String (List (Option PriceRecord)) :=
  match r.pairs with
  | .val pairs => pairs.mapM (fun p => getLatestPrice db p)
  | _ => .error "Invalid request: pairs must be an array."

/-- The getLatestPrices handler: its try/catch turns any failure — a parse
error or a thrown body error — into the `{error}` payload. -/
def getLatestPricesHandler (db : Option Store) (req : Parsed LatestReq) :
    RpcResp (List (Option PriceRecord)) :=
  match req with
  | .malformed m =>
    .errorPayload (orDefault m "Failed to get latest prices.")
  | .ok r =>
    match getLatestPricesBody db r with
    | .ok res => .payload res
    | .error e => .errorPayload (orDefault e "Failed to get latest prices.")

/-- Body of the getHistoricalPrices handler: validates `pairs`, `from` and
`to`, then queries the store once per pair, building the pair-keyed result
object (modelled as an association list in input order). -/
def getHistoricalPricesBody (db : Option Store) (r : HistReq) :
    Except String (List (String × List PriceRecord)) :=
  match r.pairs, r.fromTs, r.toTs with
  | .val pairs, .val f, .val t =>
    pairs.mapM (fun p => (getHistoricalPrices db p f t).map (fun l => (p, l)))
  | _, _, _ =>
    .error "Invalid request: pairs must be an array, from and to must be numbers."

/-- The getHistoricalPrices handler. -/
def getHistoricalPricesHandler (db : Option Store) (req : Parsed HistReq) :
    RpcResp (List (String × List PriceRecord)) :=
  match req with
  | .malformed m =>
    .errorPayload (orDefault m "Failed to get historical prices.")
  | .ok r =>
    match getHistoricalPricesBody db r with
    | .ok res => .payload res
    | .error e => .errorPayload (orDefault e "Failed to get historical prices.")

/-- A getLatestPrices request that is malformed: the JSON did not parse, or
`pairs` fails Array.isArray. -/
def latestReqMalformed : Parsed LatestReq → Bool
  | .malformed _ => true
  | .ok r => !r.pairs.isVal

/-- A getHistoricalPrices request that is malformed: the JSON did not
parse, or `pairs` fails Array.isArray, or `from`/`to` is not a number. -/
def histReqMalformed : Parsed HistReq → Bool
  | .malformed _ => true
  | .ok r => !(r.pairs.isVal && r.fromTs.isVal && r.toTs.isVal)

end CryptoTracker

namespace CryptoTracker

/-!
Order-theoretic facts about the key encoding, used to settle the
round-trip property: reflexivity and antisymmetry of the byte order, its
invariance under a common prefix, and the fact that a key lying between a
prefix and any extension of that prefix must itself extend the prefix.
-/

/-- The byte order is reflexive. -/
theorem lexLeL_refl : ∀ l : List Nat, lexLeL l l = true
  | [] => rfl
  | a :: as => by
    rw [lexLeL, if_neg (by omega), if_neg (by omega)]
    exact lexLeL_refl as

/-- The byte order is antisymmetric. -/
theorem lexLeL_antisymm : ∀ {x y : List Nat}, lexLeL x y = true →
    lexLeL y x = true → x = y
  | [], [], _, _ => rfl
  | [], _ :: _, _, h2 => by rw [lexLeL] at h2; exact absurd h2 (by decide)
  | _ :: _, [], h1, _ => by rw [lexLeL] at h1; exact absurd h1 (by decide)
  | a :: as, b :: bs, h1, h2 => by
    rcases Nat.lt_trichotomy a b with hab | hab | hab
    · rw [lexLeL, if_neg (by omega), if_pos (by omega)] at h2
      exact absurd h2 (by decide)
    · subst hab
      rw [lexLeL, if_neg (by omega), if_neg (by omega)] at h1
      rw [lexLeL, if_neg (by omega), if_neg (by omega)] at h2
      rw [lexLeL_antisymm h1 h2]
    · rw [lexLeL, if_neg (by omega), if_pos (by omega)] at h1
      exact absurd h1 (by decide)

/-- A sequence precedes any of its extensions. -/
theorem lexLeL_self_append : ∀ l m : List Nat, lexLeL l (l ++ m) = true
  | [], _ => rfl
  | a :: as, m => by
    rw [List.cons_append, lexLeL, if_neg (by omega), if_neg (by omega)]
    exact lexLeL_self_append as m

/-- The byte order is invariant under a common prefix. -/
theorem lexLeL_append_left : ∀ (l x y : List Nat),
    lexLeL (l ++ x) (l ++ y) = lexLeL x y
  | [], _, _ => rfl
  | a :: as, x, y => by
    rw [List.cons_append, List.cons_append, lexLeL,
      if_neg (by omega), if_neg (by omega)]
    exact lexLeL_append_left as x y

/-- A sequence is a prefix of any of its extensions. -/
theorem isPrefixOf_self_append : ∀ p q : List Nat,
    p.isPrefixOf (p ++ q) = true
  | [], _ => List.isPrefixOf_nil_left
  | a :: as, q => by
    rw [List.cons_append, List.isPrefixOf]
    simp [isPrefixOf_self_append as q]

/-- A sequence lying between `p` and an extension of `p` extends `p`. -/
theorem range_isPrefixOf : ∀ {p x t : List Nat}, lexLeL p x = true →
    lexLeL x (p ++ t) = true → p.isPrefixOf x = true
  | [], _, _, _, _ => List.isPrefixOf_nil_left
  | _ :: _, [], _, h1, _ => by rw [lexLeL] at h1; exact absurd h1 (by decide)
  | a :: as, b :: bs, t, h1, h2 => by
    rcases Nat.lt_trichotomy a b with hab | hab | hab
    · rw [List.cons_append, lexLeL, if_neg (by omega), if_pos (by omega)] at h2
      exact absurd h2 (by decide)
    · subst hab
      rw [lexLeL, if_neg (by omega), if_neg (by omega)] at h1
      rw [List.cons_append, lexLeL, if_neg (by omega), if_neg (by omega)] at h2
      rw [List.isPrefixOf]
      simp [range_isPrefixOf h1 h2]
    · rw [lexLeL, if_neg (by omega), if_pos (by omega)] at h1
      exact absurd h1 (by decide)

/-- Codepoint sequences determine strings. -/
theorem strBytes_inj {a b : String} (h : strBytes a = strBytes b) : a = b := by
  apply String.ext
  have hinj : Function.Injective Char.toNat := by
    intro c d hcd
    exact Char.ext (UInt32.toNat.inj hcd)
  exact List.map_injective_iff.mpr hinj h

/-- Codepoints of a concatenation. -/
theorem strBytes_append (a b : String) :
    strBytes (a ++ b) = strBytes a ++ strBytes b := by
  simp [strBytes]

/-- Codepoints of a push. -/
theorem strBytes_push (s : String) (c : Char) :
    strBytes (s.push c) = strBytes s ++ [c.toNat] := by
  simp [strBytes]

/-- The key order is reflexive. -/
theorem keyLe_refl (k : String) : keyLe k k = true := lexLeL_refl _

/-- The key order is antisymmetric. -/
theorem keyLe_antisymm {a b : String} (h1 : keyLe a b = true)
    (h2 : keyLe b a = true) : a = b :=
  strBytes_inj (lexLeL_antisymm h1 h2)

/-- Every character that `Nat.toDigitsCore` prepends is a decimal digit
(codepoint between 48 and 57), and with fuel available at least one is
prepended. -/
theorem toDigitsCore_shape : ∀ (fuel n : Nat) (ds : List Char),
    ∃ l : List Char, Nat.toDigitsCore 10 fuel n ds = l ++ ds ∧
      (0 < fuel → l ≠ []) ∧ ∀ c ∈ l, 48 ≤ c.toNat ∧ c.toNat ≤ 57
  | 0, _, ds => ⟨[], rfl, by simp, by simp⟩
  | fuel + 1, n, ds => by
    have hd : 48 ≤ (Nat.digitChar (n % 10)).toNat ∧
        (Nat.digitChar (n % 10)).toNat ≤ 57 := by
      have h10 : n % 10 < 10 := Nat.mod_lt _ (by omega)
      interval_cases h : n % 10 <;> decide
    by_cases h : n / 10 = 0
    · refine ⟨[Nat.digitChar (n % 10)], ?_, fun _ => by simp, ?_⟩
      · rw [Nat.toDigitsCore]
        simp [h]
      · intro c hc
        rw [List.mem_singleton] at hc
        subst hc
        exact hd
    · obtain ⟨l, hl, _, hall⟩ :=
        toDigitsCore_shape fuel (n / 10) (Nat.digitChar (n % 10) :: ds)
      refine ⟨l ++ [Nat.digitChar (n % 10)], ?_, fun _ => by simp, ?_⟩
      · rw [Nat.toDigitsCore]
        simp only [h, if_false]
        rw [hl]
        simp
      · intro c hc
        rcases List.mem_append.mp hc with h1 | h1
        · exact hall c h1
        · rw [List.mem_singleton] at h1
          subst h1
          exact hd

/-- The decimal text of a natural number is nonempty and consists of digit
codepoints. -/
theorem natToString_bytes (n : Nat) : ∃ b bs,
    strBytes (toString n) = b :: bs ∧ 48 ≤ b ∧ b ≤ 57 := by
  have hrepr : (toString n : String) = (Nat.toDigitsCore 10 (n + 1) n []).asString := rfl
  obtain ⟨l, hl, hne, hall⟩ := toDigitsCore_shape (n + 1) n []
  rw [List.append_nil] at hl
  cases l with
  | nil => exact absurd rfl (hne (Nat.succ_pos n))
  | cons c cs =>
    refine ⟨c.toNat, cs.map Char.toNat, ?_, (hall c (by simp)).1,
      (hall c (by simp)).2⟩
    rw [hrepr, hl]
    rfl

/-- The range filter of a scan bounded below and above by the same key `k`
drops every binding whose key differs from `k`. -/
theorem filter_exact_range_nil (k : String) :
    ∀ l : List (String × PriceValue), (∀ e ∈ l, e.1 ≠ k) →
      l.filter (fun e => keyLe k e.1 && keyLe e.1 k) = []
  | [], _ => rfl
  | e :: es, h => by
    have hne : e.1 ≠ k := h e (List.mem_cons_self e es)
    have hcond : (keyLe k e.1 && keyLe e.1 k) = false := by
      cases h1 : keyLe k e.1 with
      | false => rfl
      | true =>
        cases h2 : keyLe e.1 k with
        | false => rfl
        | true => exact absurd (keyLe_antisymm h2 h1) hne
    rw [List.filter_cons, hcond]
    simp only [if_false, Bool.false_eq_true]
    exact filter_exact_range_nil k es (fun x hx => h x (List.mem_cons_of_mem e hx))

/-- The store holds exactly the freshly put binding in the degenerate range
`[k, k]`: the scan getRange(series, ts, ts) performs after a put. -/
theorem streamRange_put_exact (st : Store) (k : String) (v : PriceValue) :
    streamRange (dbPut st k v) k k = [(k, v)] := by
  have hkk : keyLe k k = true := keyLe_refl k
  have hrest : (st.filter (fun e => e.1 != k)).filter
      (fun e => keyLe k e.1 && keyLe e.1 k) = [] := by
    apply filter_exact_range_nil
    intro e he
    have := (List.mem_filter.mp he).2
    simpa using this
  rw [streamRange, dbPut, List.filter_cons]
  simp only [hkk, Bool.and_self, if_pos]
  rw [hrest]
  rfl

/-- The range filter of the latest-lookup scan for a series drops every
binding whose key does not start with the series' prefix. -/
theorem filter_series_range_nil (pfx : String) :
    ∀ l : List (String × PriceValue),
      (∀ e ∈ l, jsStartsWith e.1 pfx = false) →
      l.filter (fun e => keyLe pfx e.1 && keyLe e.1 (pfx.push xff)) = []
  | [], _ => rfl
  | e :: es, h => by
    have hes : jsStartsWith e.1 pfx = false := h e (List.mem_cons_self e es)
    have hcond : (keyLe pfx e.1 && keyLe e.1 (pfx.push xff)) = false := by
      cases h1 : keyLe pfx e.1 with
      | false => rfl
      | true =>
        cases h2 : keyLe e.1 (pfx.push xff) with
        | false => rfl
        | true =>
          rw [keyLe, strBytes_push] at h2
          have : jsStartsWith e.1 pfx = true := range_isPrefixOf h1 h2
          rw [hes] at this
          exact absurd this (by decide)
    rw [List.filter_cons, hcond]
    simp only [if_false, Bool.false_eq_true]
    exact filter_series_range_nil pfx es
      (fun x hx => h x (List.mem_cons_of_mem e hx))

/-- After a put into a store holding no other record of the series, the
latest-lookup scan `[series + "/", series + "/" + '\xff']` sees exactly the
fresh binding. -/
theorem streamRange_put_fresh (st : Store) (pair : String) (ts : Nat)
    (v : PriceValue)
    (h : ∀ e ∈ st, jsStartsWith e.1 (pair ++ "/") = false) :
    streamRange (dbPut st (pair ++ "/" ++ toString ts) v) (pair ++ "/")
      ((pair ++ "/").push xff) = [(pair ++ "/" ++ toString ts, v)] := by
  obtain ⟨b, bs, hts, hb1, hb2⟩ := natToString_bytes ts
  have hk1 : keyLe (pair ++ "/") (pair ++ "/" ++ toString ts) = true := by
    rw [keyLe, show strBytes (pair ++ "/" ++ toString ts) =
      strBytes (pair ++ "/") ++ strBytes (toString ts) from strBytes_append _ _]
    exact lexLeL_self_append _ _
  have hk2 : keyLe (pair ++ "/" ++ toString ts) ((pair ++ "/").push xff) = true := by
    rw [keyLe, show strBytes (pair ++ "/" ++ toString ts) =
      strBytes (pair ++ "/") ++ strBytes (toString ts) from strBytes_append _ _,
      strBytes_push, lexLeL_append_left, hts]
    have hxff : xff.toNat = 255 := by decide
    rw [hxff, lexLeL, if_pos (by omega)]
  have hrest : (st.filter
      (fun e => e.1 != (pair ++ "/" ++ toString ts))).filter
      (fun e => keyLe (pair ++ "/") e.1 && keyLe e.1 ((pair ++ "/").push xff)) = [] := by
    apply filter_series_range_nil
    intro e he
    exact h e (List.mem_filter.mp he).1
  rw [streamRange, dbPut, List.filter_cons]
  simp only [hk1, hk2, Bool.and_self, if_pos]
  rw [hrest]
  rfl

end CryptoTracker

namespace CryptoTracker

/-- C1: after writing (S, 999999999) then (S, 1000000000), getLatestPrice
returns the record stored at 999999999, not the one at 1000000000: the store
compares keys as text, and "S/999999999" sorts above "S/1000000000".  This
exhibits the code's divergence from the claim that getLatest returns the
record with the maximum timestamp. -/
theorem getLatest_digit_boundary_bug :
    savePriceData .ok (some []) "S" 999999999 1 ["A"] =
      .ok [("S/999999999", ⟨1, ["A"]⟩)] ∧
    savePriceData .ok (some [("S/999999999", ⟨1, ["A"]⟩)]) "S" 1000000000 2 ["B"] =
      .ok [("S/1000000000", ⟨2, ["B"]⟩), ("S/999999999", ⟨1, ["A"]⟩)] ∧
    getLatestPrice
      (some [("S/1000000000", ⟨2, ["B"]⟩), ("S/999999999", ⟨1, ["A"]⟩)]) "S" =
      .ok (some { pair := "S", timestamp := some 999999999,
                  averagePrice := 1, exchanges := ["A"] }) := by
  refine ⟨rfl, rfl, rfl⟩

/-- C2: after put("BTC-USDT", 1000, ...) and put("BTC-USDT", 2000, ...),
getHistoricalPrices("BTC-USDT", 500, 1500) returns the empty list instead of
the record at timestamp 1000: the text bounds "BTC-USDT/500" .. "BTC-USDT/1500"
exclude the key "BTC-USDT/1000".  This exhibits the code's divergence from
the claim that getRange returns exactly the records with from ≤ t ≤ to. -/
theorem getRange_text_bounds_bug :
    savePriceData .ok (some []) "BTC-USDT" 1000 50000 ["A", "B"] =
      .ok [("BTC-USDT/1000", ⟨50000, ["A", "B"]⟩)] ∧
    savePriceData .ok (some [("BTC-USDT/1000", ⟨50000, ["A", "B"]⟩)])
        "BTC-USDT" 2000 51000 ["C"] =
      .ok [("BTC-USDT/2000", ⟨51000, ["C"]⟩),
           ("BTC-USDT/1000", ⟨50000, ["A", "B"]⟩)] ∧
    getHistoricalPrices
      (some [("BTC-USDT/2000", ⟨51000, ["C"]⟩),
             ("BTC-USDT/1000", ⟨50000, ["A", "B"]⟩)]) "BTC-USDT" 500 1500 =
      .ok [] := by
  refine ⟨rfl, rfl, rfl⟩

/-- C3: the scheduler has no single-flight guard: starting the scheduler and
then letting the interval timer fire before the first execution completes
reaches a state with two task executions in flight at once, violating the
claimed at-most-one guarantee. -/
theorem scheduler_two_executions_in_flight :
    runEvents initSchedState [SchedEvent.startCall, SchedEvent.timerFire] =
      some { isRunning := true, timerArmed := true, inFlight := 2,
             succeeded := 0, failed := 0 } := by
  rfl

/-- C7: whatever execution is in flight (timer-driven or on-demand), a task
that raises is caught by runTask's catch branch: the execution is recorded
as failed, `isRunning` and the armed timer are untouched, and when the timer
was armed the next tick is still enabled. -/
theorem scheduler_survives_task_failure (s : SchedState)
    (h : 0 < s.inFlight) :
    ∃ s2, schedStep s (SchedEvent.taskFinish false) = some s2 ∧
      s2.isRunning = s.isRunning ∧
      s2.timerArmed = s.timerArmed ∧
      s2.failed = s.failed + 1 ∧
      s2.inFlight = s.inFlight - 1 ∧
      (s.timerArmed = true →
        schedStep s2 SchedEvent.timerFire =
          some { s2 with inFlight := s2.inFlight + 1 }) := by
  refine ⟨{ s with inFlight := s.inFlight - 1, failed := s.failed + 1 }, ?_,
    rfl, rfl, rfl, rfl, ?_⟩
  · simp [schedStep, h]
  · intro ht
    simp [schedStep, ht]

/-- Witness for C7 at a concrete armed state with one execution in flight. -/
theorem scheduler_survives_task_failure_witness :
    ∃ s2,
      schedStep { isRunning := true, timerArmed := true, inFlight := 1,
                  succeeded := 0, failed := 0 }
        (SchedEvent.taskFinish false) = some s2 ∧
      s2.isRunning = true ∧
      s2.timerArmed = true ∧
      s2.failed = 0 + 1 ∧
      s2.inFlight = 1 - 1 ∧
      (true = true →
        schedStep s2 SchedEvent.timerFire =
          some { s2 with inFlight := s2.inFlight + 1 }) := by
  have h := scheduler_survives_task_failure
    { isRunning := true, timerArmed := true, inFlight := 1,
      succeeded := 0, failed := 0 } (by decide)
  exact h

/-- C4, counterexample: a run that fails still produces `success := true` —
the task error is swallowed by runTask's catch, so the handler never sees
it.  The claim that the success flag is false when the run failed is
violated at this input. -/
theorem trigger_success_true_on_failed_run :
    (triggerDataCollectionHandler (Except.error "boom")).success = true := by
  rfl

/-- C4, amended: the handler's response is computed from the completed run's
outcome (it awaits runOnDemand), and is the fixed success acknowledgement
whatever that outcome was: task failures are caught inside runTask and never
reach the handler. -/
theorem trigger_always_acknowledges_success (o : Except String Unit) :
    triggerDataCollectionHandler o =
      { success := true,
        message := "Data collection task triggered successfully." } := by
  cases o <;> rfl

/-- C5, counterexample: with the storage medium unable to accept writes, the
put fails with StoreUnavailable inside savePriceData, but the error is
caught and logged there: the caller observes a normal return and an
unchanged store, not a surfaced failure. -/
theorem savePriceData_swallows_store_failure :
    savePriceData StoreMedium.unavailable (some []) "BTC-USDT" 1000 50000
      ["A"] = Except.ok [] := by
  rfl

/-- C5, amended: whenever the db handle is initialized, savePriceData
returns normally even when the underlying medium cannot be written — the
write error is caught inside savePriceData and the store is left unchanged;
only a missing db handle makes the operation throw. -/
theorem savePriceData_returns_normally (s : Store) (pair : String)
    (ts : Nat) (v : Int) (ex : List String) :
    savePriceData StoreMedium.unavailable (some s) pair ts v ex =
      Except.ok s ∧
    savePriceData StoreMedium.ok (some s) pair ts v ex =
      Except.ok (dbPut s (pair ++ "/" ++ toString ts) ⟨v, ex⟩) ∧
    savePriceData StoreMedium.unavailable none pair ts v ex =
      Except.error "Hyperbee instance is not initialized. Call initDB first." := by
  refine ⟨rfl, rfl, rfl⟩

/-- C8: when the feed returns an empty list of instruments, the ingestion
run performs zero writes (the store is returned unchanged) and completes
normally, whatever the state of the storage medium. -/
theorem empty_feed_is_noop (medium : StoreMedium) (db : Store)
    (priceOf : String → Option PriceInfo) (now : Nat) :
    dataCollectionTask medium db (fetchTopCryptoData [] priceOf now) =
      Except.ok db := by
  rfl

/-- C10: initDB is a process-wide singleton: any call made while the module
already holds an instance returns that very instance and leaves the module
state unchanged, whatever path is supplied; and the first call constructs
the instance at its own path and records it. -/
theorem initDB_singleton (m : DBModule) (b : HyperbeeInstance)
    (p q : String) (h : m.hbee = some b) :
    initDB m p = (b, m) ∧
    initDB { hbee := none } q =
      ({ storagePath := q }, { hbee := some { storagePath := q } }) := by
  constructor
  · simp [initDB, h]
  · rfl

/-- Witness for C10: a second call with a different path returns the
instance created by the first call. -/
theorem initDB_singleton_witness :
    initDB { hbee := some { storagePath := "./db/crypto-prices" } }
        "./somewhere/else" =
      ({ storagePath := "./db/crypto-prices" },
       { hbee := some { storagePath := "./db/crypto-prices" } }) ∧
    initDB { hbee := none } "./db/crypto-prices" =
      ({ storagePath := "./db/crypto-prices" },
       { hbee := some { storagePath := "./db/crypto-prices" } }) := by
  exact initDB_singleton _ _ _ "./db/crypto-prices" rfl

/-- C9: every malformed request to a query handler — unparsable JSON, a
`pairs` field that is not an array, a `from`/`to` that is not a number — is
answered with the structured `{error}` payload; the handlers are total
functions into `RpcResp`, so no exception escapes to the transport. -/
theorem malformed_requests_get_error_payload (db : Option Store)
    (r1 : Parsed LatestReq) (r2 : Parsed HistReq)
    (h1 : latestReqMalformed r1 = true) (h2 : histReqMalformed r2 = true) :
    (getLatestPricesHandler db r1).isError = true ∧
    (getHistoricalPricesHandler db r2).isError = true := by
  constructor
  · cases r1 with
    | malformed m => simp [getLatestPricesHandler, RpcResp.isError]
    | ok r =>
      cases hp : r.pairs with
      | val pairs =>
        simp [latestReqMalformed, hp, JsonField.isVal] at h1
      | missing =>
        simp [getLatestPricesHandler, getLatestPricesBody, hp, RpcResp.isError]
      | wrongType =>
        simp [getLatestPricesHandler, getLatestPricesBody, hp, RpcResp.isError]
  · cases r2 with
    | malformed m => simp [getHistoricalPricesHandler, RpcResp.isError]
    | ok r =>
      have hbody : getHistoricalPricesBody db r =
          .error "Invalid request: pairs must be an array, from and to must be numbers." := by
        cases hp : r.pairs <;> cases hf : r.fromTs <;> cases ht : r.toTs <;>
          simp only [getHistoricalPricesBody, hp, hf, ht] <;>
          simp [histReqMalformed, hp, hf, ht, JsonField.isVal] at h2
      simp [getHistoricalPricesHandler, hbody, RpcResp.isError]

/-- Witness for C9: a getLatestPrices request whose `pairs` is not an array
and an unparsable getHistoricalPrices request both get the error payload. -/
theorem malformed_requests_get_error_payload_witness :
    (getLatestPricesHandler (some []) (Parsed.ok ⟨JsonField.wrongType⟩)).isError
        = true ∧
    (getHistoricalPricesHandler (some [])
        (Parsed.malformed "Unexpected token")).isError = true := by
  exact malformed_requests_get_error_payload (some [])
    (Parsed.ok ⟨JsonField.wrongType⟩) (Parsed.malformed "Unexpected token")
    (by decide) (by decide)

/-- C6, counterexample: with a record already stored at (S, 9), writing
(S, 10) — numerically the latest — and reading back through getLatestPrice
returns the value and sources of the record at 9, not the ones just
written: "S/9" sorts above "S/10" in text order. -/
theorem roundtrip_via_getLatest_fails :
    savePriceData .ok (some [("S/9", ⟨7, ["X"]⟩)]) "S" 10 50 ["A", "B"] =
      .ok [("S/10", ⟨50, ["A", "B"]⟩), ("S/9", ⟨7, ["X"]⟩)] ∧
    getLatestPrice (some [("S/10", ⟨50, ["A", "B"]⟩), ("S/9", ⟨7, ["X"]⟩)])
        "S" =
      .ok (some { pair := "S", timestamp := some 9, averagePrice := 7,
                  exchanges := ["X"] }) := by
  refine ⟨rfl, rfl⟩

/-- C6, amended: writing a record via put and immediately reading it back
via getRange(series, ts, ts) always yields exactly one record carrying the
value and sources just written; reading back via getLatest(series) also
does so whenever the store holds no other record of that series (in
particular for the first write of a series). -/
theorem roundtrip_readback (st st2 : Store) (pair : String) (ts : Nat)
    (v : Int) (ex : List String)
    (hput : savePriceData .ok (some st) pair ts v ex = .ok st2) :
    (∃ t, getHistoricalPrices (some st2) pair ts ts =
        .ok [{ pair := pair, timestamp := t, averagePrice := v,
               exchanges := ex }]) ∧
    ((∀ e ∈ st, jsStartsWith e.1 (pair ++ "/") = false) →
      ∃ t, getLatestPrice (some st2) pair =
        .ok (some { pair := pair, timestamp := t, averagePrice := v,
                    exchanges := ex })) := by
  have hst2 : st2 = dbPut st (pair ++ "/" ++ toString ts) ⟨v, ex⟩ := by
    simp only [savePriceData, dbPutM] at hput
    exact (Except.ok.inj hput).symm
  subst hst2
  constructor
  · have hpre : jsStartsWith (pair ++ "/" ++ toString ts) (pair ++ "/") = true := by
      rw [jsStartsWith, show strBytes (pair ++ "/" ++ toString ts) =
        strBytes (pair ++ "/") ++ strBytes (toString ts) from strBytes_append _ _]
      exact isPrefixOf_self_append _ _
    refine ⟨keyTimestamp (pair ++ "/" ++ toString ts), ?_⟩
    simp only [getHistoricalPrices, streamRange_put_exact, List.filter_cons,
      hpre, if_pos, List.filter_nil, List.map_cons, List.map_nil,
      entryToRecord, sortBy, insertBy]
  · intro hno
    refine ⟨keyTimestamp (pair ++ "/" ++ toString ts), ?_⟩
    simp only [getLatestPrice, streamRange_put_fresh st pair ts ⟨v, ex⟩ hno,
      entryToRecord]
    rfl

/-- Witness for C6: a write of (BTC-USDT, 1000) over a store holding one
record of another series reads back with the written value and sources via
both paths. -/
theorem roundtrip_readback_witness :
    (∃ t, getHistoricalPrices
        (some [("BTC-USDT/1000", ⟨50000, ["Binance", "OKX"]⟩),
               ("ETH-USDT/5", ⟨9, ["E"]⟩)]) "BTC-USDT" 1000 1000 =
        .ok [{ pair := "BTC-USDT", timestamp := t, averagePrice := 50000,
               exchanges := ["Binance", "OKX"] }]) ∧
    (∃ t, getLatestPrice
        (some [("BTC-USDT/1000", ⟨50000, ["Binance", "OKX"]⟩),
               ("ETH-USDT/5", ⟨9, ["E"]⟩)]) "BTC-USDT" =
        .ok (some { pair := "BTC-USDT", timestamp := t,
                    averagePrice := 50000,
                    exchanges := ["Binance", "OKX"] })) := by
  have h := roundtrip_readback [("ETH-USDT/5", ⟨9, ["E"]⟩)]
    [("BTC-USDT/1000", ⟨50000, ["Binance", "OKX"]⟩),
     ("ETH-USDT/5", ⟨9, ["E"]⟩)] "BTC-USDT" 1000 50000 ["Binance", "OKX"] rfl
  exact ⟨h.1, h.2 (by decide)⟩

end CryptoTracker
